import Mathlib

/-!
# Verification of aethergraph-examples demo scripts

Shallow embedding of the example scripts of the `aethergraph-examples`
repository, together with proofs about the claims made by its
specification.  Python integers are modelled as `Int`, Python lists as
`List`, JSON values as an inductive `Json` type, and code that can raise
an exception returns `Option`/`Except` (`none` / `.error` = the exception
propagates).  The aethergraph engine itself (scheduler, suspension and
resumption) is not part of the repository; where a claim depends on it,
the engine behaviour is modelled from the specification's words and the
definition says so in its doc comment.
-/

namespace AethergraphExamples

/-! ## `demo_examples/6_crash_resume_static_graph.py`: the checkpointed loop

`resumable_work` runs `while i < n: acc += i; i += 1`, writing a
checkpoint `{"i": i, "acc": acc}` whenever `i % 8 == 0 or i == n`, and
raising `RuntimeError` when `i == crash_at` (checked after the write).
`resumableLoopGo` embeds the loop body (lines 137-152); the `Nat` fuel
argument only bounds the recursion, `resumableLoop` supplies the exact
number of remaining iterations `(n - i).toNat`, which matches the
`while i < n` guard.  The result is the list of checkpoint writes made
(in order) paired with `some acc` on normal return and `none` when the
simulated crash was raised. -/

def ckptDue (n i : Int) : Bool := i % 8 == 0 || i == n

def resumableLoopGo (n : Int) (crashAt : Option Int) :
    Nat → Int → Int → List (Int × Int) × Option Int
  | 0, _, acc => ([], some acc)
  | fuel + 1, i, acc =>
    if i < n then
      let i' := i + 1
      let acc' := acc + i
      let writes : List (Int × Int) := if ckptDue n i' then [(i', acc')] else []
      if crashAt = some i' then (writes, none)
      else
        let rest := resumableLoopGo n crashAt fuel i' acc'
        (writes ++ rest.1, rest.2)
    else ([], some acc)

def resumableLoop (n : Int) (crashAt : Option Int) (i acc : Int) :
    List (Int × Int) × Option Int :=
  resumableLoopGo n crashAt (n - i).toNat i acc

/-- The checkpoint file's contents after a sequence of writes, starting
from `init`: each write replaces the whole file. -/
def finalCkpt (writes : List (Int × Int)) (init : Option (Int × Int)) :
    Option (Int × Int) :=
  writes.foldl (fun _ w => some w) init

-- sanity checks against a hand-run of the Python loop
example : (resumableLoop 9 none 0 0).2 = some 36 := by decide
example : (resumableLoop 9 none 0 0).1 = [(8, 28), (9, 36)] := by decide
example : resumableLoop 12 (some 9) 0 0 = ([(8, 28)], none) := by decide
example : resumableLoop 12 (some 8) 0 0 = ([(8, 28)], none) := by decide
example : (resumableLoop 12 none 8 28).2 = some 66 := by decide
example : finalCkpt [(8, 28)] none = some (8, 28) := by decide

/-! Core lemmas about the loop.  The running invariant is kept in the
division-free form `2 * acc = i * (i - 1)` (the sum `0 + 1 + ... + (i-1)`). -/

theorem resumableLoopGo_no_crash (n : Int) (fuel : Nat) :
    ∀ i acc, (n - i).toNat ≤ fuel → i ≤ n →
      ∃ a, (resumableLoopGo n none fuel i acc).2 = some a ∧
        2 * a = 2 * acc + n * (n - 1) - i * (i - 1) := by
  induction fuel with
  | zero =>
    intro i acc hf hle
    have hi : i = n := by omega
    subst hi
    exact ⟨acc, rfl, by ring⟩
  | succ fuel ih =>
    intro i acc hf hle
    by_cases hin : i < n
    · have hfuel : (n - (i + 1)).toNat ≤ fuel := by omega
      obtain ⟨a, ha, hinv⟩ := ih (i + 1) (acc + i) hfuel (by omega)
      refine ⟨a, ?_, ?_⟩
      · simp only [resumableLoopGo, if_pos hin]
        simpa using ha
      · have key : (i + 1) * (i + 1 - 1) = i * (i - 1) + 2 * i := by ring
        omega
    · have hi : i = n := by omega
      subst hi
      refine ⟨acc, ?_, by ring⟩
      simp only [resumableLoopGo, if_neg hin]

/-- Every checkpoint written by the loop (with or without a simulated
crash) records a state `(j, a)` with `i < j ≤ n`, `j` matching the
write condition, and `a` the sum `0 + 1 + ... + (j-1)`, provided the
starting accumulator satisfies the same invariant. -/
theorem resumableLoopGo_writes (n : Int) (crashAt : Option Int) (fuel : Nat) :
    ∀ i acc, 2 * acc = i * (i - 1) →
      ∀ w ∈ (resumableLoopGo n crashAt fuel i acc).1,
        (w.1 % 8 = 0 ∨ w.1 = n) ∧ i < w.1 ∧ w.1 ≤ n ∧ 2 * w.2 = w.1 * (w.1 - 1) := by
  induction fuel with
  | zero =>
    intro i acc _ w hw
    simp [resumableLoopGo] at hw
  | succ fuel ih =>
    intro i acc hacc w hw
    by_cases hin : i < n
    · simp only [resumableLoopGo, if_pos hin] at hw
      have hacc' : 2 * (acc + i) = (i + 1) * (i + 1 - 1) := by
        have : (i + 1) * (i + 1 - 1) = i * (i - 1) + 2 * i := by ring
        omega
      have hdue : ∀ hd : ckptDue n (i + 1) = true, w = (i + 1, acc + i) →
          (w.1 % 8 = 0 ∨ w.1 = n) ∧ i < w.1 ∧ w.1 ≤ n ∧ 2 * w.2 = w.1 * (w.1 - 1) := by
        intro hd hweq
        subst hweq
        simp only [ckptDue, Bool.or_eq_true, beq_iff_eq] at hd
        refine ⟨hd, by omega, ?_, hacc'⟩
        rcases hd with h8 | hn
        · omega
        · omega
      by_cases hcr : crashAt = some (i + 1)
      · rw [if_pos hcr] at hw
        by_cases hd : ckptDue n (i + 1)
        · rw [if_pos hd] at hw
          simp only [List.mem_singleton] at hw
          exact hdue hd hw
        · rw [if_neg hd] at hw
          simp at hw
      · rw [if_neg hcr] at hw
        simp only [List.mem_append] at hw
        rcases hw with hw | hw
        · by_cases hd : ckptDue n (i + 1)
          · rw [if_pos hd] at hw
            simp only [List.mem_singleton] at hw
            exact hdue hd hw
          · rw [if_neg hd] at hw
            simp at hw
        · have := ih (i + 1) (acc + i) hacc' w hw
          exact ⟨this.1, by omega, this.2.2⟩
    · simp [resumableLoopGo, if_neg hin] at hw

/-- Completeness of the checkpoint writes in a crash-free run: every
iteration index `j` in `(i, n]` that meets the write condition shows up
in the write log. -/
theorem resumableLoopGo_writes_complete (n : Int) (fuel : Nat) :
    ∀ i acc, (n - i).toNat ≤ fuel →
      ∀ j : Int, i < j → j ≤ n → (j % 8 = 0 ∨ j = n) →
        ∃ a, (j, a) ∈ (resumableLoopGo n none fuel i acc).1 := by
  induction fuel with
  | zero =>
    intro i acc hf j hij hjn _
    omega
  | succ fuel ih =>
    intro i acc hf j hij hjn hdue
    have hin : i < n := by omega
    simp only [resumableLoopGo, if_pos hin]
    rw [if_neg (fun h => Option.noConfusion h)]
    simp only [List.mem_append]
    by_cases hji : j = i + 1
    · subst hji
      have hd : ckptDue n (i + 1) = true := by
        simp only [ckptDue, Bool.or_eq_true, beq_iff_eq]
        exact hdue
      refine ⟨acc + i, Or.inl ?_⟩
      rw [if_pos hd]
      simp
    · obtain ⟨a, ha⟩ := ih (i + 1) (acc + i) (by omega) j (by omega) hjn hdue
      exact ⟨a, Or.inr ha⟩

/-- With `CRASH_AT = k` and `i < k ≤ n`, the loop raises the simulated
`RuntimeError` (result `none`) before finishing. -/
theorem resumableLoopGo_crashes (n k : Int) (fuel : Nat) :
    ∀ i acc, (n - i).toNat ≤ fuel → i < k → k ≤ n →
      (resumableLoopGo n (some k) fuel i acc).2 = none := by
  induction fuel with
  | zero =>
    intro i acc hf hik hkn
    omega
  | succ fuel ih =>
    intro i acc hf hik hkn
    have hin : i < n := by omega
    simp only [resumableLoopGo, if_pos hin]
    by_cases hcr : k = i + 1
    · rw [if_pos (by rw [hcr])]
    · rw [if_neg (by simp [Option.some.injEq]; omega)]
      exact ih (i + 1) (acc + i) (by omega) (by omega) hkn

/-! ## JSON values and the checkpoint-loading step

`Json` models the values `json.load` can produce (numbers restricted to
integers, which covers everything this demo reads and writes).  A
checkpoint file on disk is modelled as `Option (Option Json)`: `none` if
the file does not exist, `some none` if it exists but `json.load` raises
(not valid JSON), `some (some j)` if it parses to `j`. -/

inductive Json where
  | null
  | bool (b : Bool)
  | num (n : Int)
  | str (s : String)
  | arr (xs : List Json)
  | obj (fields : List (String × Json))

/-- Python `str.strip()` on the character list of a string. -/
def pyStripChars (s : List Char) : List Char :=
  ((s.dropWhile Char.isWhitespace).reverse.dropWhile Char.isWhitespace).reverse

def parseDigits (cs : List Char) : Option Nat :=
  if cs.isEmpty || !(cs.all Char.isDigit) then none
  else some (cs.foldl (fun a c => a * 10 + (c.toNat - 48)) 0)

/-- Python `int(s)` for a string `s`: optional surrounding whitespace and
sign, then decimal digits; anything else raises `ValueError` (`none`). -/
def pyIntOfStr (s : String) : Option Int :=
  match pyStripChars s.data with
  | '+' :: rest => (parseDigits rest).map Int.ofNat
  | '-' :: rest => (parseDigits rest).map (fun m => -(m : Int))
  | rest => (parseDigits rest).map Int.ofNat

/-- Python `int(x)` on a JSON value: ints are returned as-is, bools count
as 0/1 (`bool` is a subtype of `int` in Python), strings are parsed, and
everything else raises `TypeError` (`none`). -/
def pyInt : Json → Option Int
  | .num n => some n
  | .bool b => some (if b then 1 else 0)
  | .str s => pyIntOfStr s
  | _ => none

/-- Python `state[key]`: only a dict supports string subscripts; a missing
key raises `KeyError`, a non-dict raises `TypeError` (both `none`).
Objects produced by `json.load` have unique keys, so first-match lookup
is adequate. -/
def getItem (j : Json) (key : String) : Option Json :=
  match j with
  | .obj fields => fields.lookup key
  | _ => none

/-- The default state dict `{"i": 0, "acc": 0}` (line 123). -/
def defaultStateJson : Json := .obj [("i", .num 0), ("acc", .num 0)]

/-- Lines 122-131 of `resumable_work`: start from the default state; if
the file exists, `json.load` it inside `try/except` (a parse failure is
caught and keeps the default); then evaluate
`int(state["i"]), int(state["acc"])` — note this happens OUTSIDE the
`try`, so a subscript or conversion failure propagates (`none`). -/
def loadCkptState (file : Option (Option Json)) : Option (Int × Int) :=
  let state : Json :=
    match file with
    | none => defaultStateJson
    | some none => defaultStateJson
    | some (some j) => j
  match (getItem state "i").bind pyInt, (getItem state "acc").bind pyInt with
  | some i, some acc => some (i, acc)
  | _, _ => none

/-- What `json.dump({"i": i, "acc": acc}, f)` (line 146) leaves in the
checkpoint file. -/
def encodeState (i acc : Int) : Json := .obj [("i", .num i), ("acc", .num acc)]

/-- One invocation of `resumable_work(n)` with the given `CRASH_AT`
setting and checkpoint-file contents: load (or default) the state, then
run the loop.  Returns the produced value (`none` if the node raised)
and the list of checkpoint writes it made. -/
def resumableRun (n : Int) (crashAt : Option Int) (file : Option (Option Json)) :
    Option Int × List (Int × Int) :=
  match loadCkptState file with
  | none => (none, [])
  | some (i, acc) =>
    let r := resumableLoop n crashAt i acc
    (r.2, r.1)

example : loadCkptState none = some (0, 0) := by decide
example : loadCkptState (some none) = some (0, 0) := by decide
example : loadCkptState (some (some (encodeState 8 28))) = some (8, 28) := by decide
example : loadCkptState (some (some (Json.arr []))) = none := by decide
example : (resumableRun 12 (some 9) none).2 = [(8, 28)] := by decide

theorem loadCkptState_encode (i acc : Int) :
    loadCkptState (some (some (encodeState i acc))) = some (i, acc) := rfl

theorem finalCkpt_mem :
    ∀ (ws : List (Int × Int)) (init : Option (Int × Int)) (w : Int × Int),
      finalCkpt ws init = some w → w ∈ ws ∨ init = some w := by
  intro ws
  induction ws with
  | nil =>
    intro init w h
    exact Or.inr h
  | cons x t ih =>
    intro init w h
    rcases ih (some x) w h with hm | he
    · exact Or.inl (List.mem_cons_of_mem x hm)
    · exact Or.inl (by simp at he; simp [he])

theorem finalCkpt_isSome :
    ∀ (ws : List (Int × Int)), ws ≠ [] →
      ∀ init, ∃ w, finalCkpt ws init = some w := by
  intro ws
  induction ws with
  | nil => intro h; exact absurd rfl h
  | cons x t ih =>
    intro _ init
    rcases t with _ | ⟨y, t'⟩
    · exact ⟨x, rfl⟩
    · exact ih (by simp) (some x)

/-! ## The other `restart_minimal` nodes and the (spec-modelled) scheduler -/

/-- `fast_ok` (lines 91-98): returns `{"value": x * 3}`. -/
def fastOk (x : Int) : Int := x * 3

/-- `combine` (lines 160-166): returns `{"sum": a + b}`. -/
def combineSum (a b : Int) : Int := a + b

/-- The node ids of the `restart_minimal` graph (lines 171-187). -/
def restartMinimalNodes : List String := ["fast_ok_1", "resumable_2", "combine_3"]

/-- The `_after`/dataflow dependencies of `restart_minimal`:
`combine_3` consumes `a.value` and `b.value` and is `_after=[a, b]`. -/
def restartMinimalDeps : String → List String
  | "combine_3" => ["fast_ok_1", "resumable_2"]
  | _ => []

/-- Modelled from the spec: the engine's scheduler is not part of the
repository ("executes ready nodes (all dependencies satisfied) with
bounded concurrency").  A valid schedule is any execution order that
runs every node once and each node only after all its dependencies. -/
def validSchedule (order : List String) : Prop :=
  order.Nodup ∧ (∀ nd ∈ restartMinimalNodes, nd ∈ order) ∧
    ∀ nd ∈ order, ∀ d ∈ restartMinimalDeps nd, order.indexOf d < order.indexOf nd

/-- Modelled from the spec: the dataflow of `restart_minimal` on a fresh
run as executed by `run_async` — `combine_3` receives `a = fast_ok_1`'s
value and `b = resumable_2`'s value once both have completed, and the
graph output `sum` is its result; if `resumable_2` raises, the graph
produces no output. -/
def restartMinimalOutput (x n : Int) : Option Int :=
  match (resumableRun n none none).1 with
  | some b => some (combineSum (fastOk x) b)
  | none => none

example : restartMinimalOutput 7 12 = some 87 := by decide

/-! ## Claim theorems for `6_crash_resume_static_graph.py` -/

/-- C1: a `resumable_work` run under a `run_id` whose previous execution
raised mid-loop via `CRASH_AT = k` (with `1 ≤ k ≤ n`, so the crash is
reached) after writing at least one checkpoint: the first run raises and
produces no value; the checkpoint file then holds the last written state
`(i₁, acc₁)` with `i₁ ≥ 1`, the new invocation with the same `run_id`
parses exactly that state back and continues from `i₁` instead of 0, and
its final returned value is `n*(n-1)/2` — the same value an
uninterrupted run returns. -/
theorem crash_resume_same_run_id_recovers (n k : Int) (hk1 : 1 ≤ k) (hkn : k ≤ n)
    (hwrote : (resumableRun n (some k) none).2 ≠ []) :
    (resumableRun n (some k) none).1 = none ∧
    ∃ i₁ acc₁,
      finalCkpt (resumableRun n (some k) none).2 none = some (i₁, acc₁) ∧
      1 ≤ i₁ ∧ i₁ ≤ n ∧
      loadCkptState (some (some (encodeState i₁ acc₁))) = some (i₁, acc₁) ∧
      (resumableRun n none (some (some (encodeState i₁ acc₁)))).1 = some (n * (n - 1) / 2) ∧
      (resumableRun n none none).1 = some (n * (n - 1) / 2) := by
  have hrun : resumableRun n (some k) none =
      ((resumableLoop n (some k) 0 0).2, (resumableLoop n (some k) 0 0).1) := rfl
  constructor
  · rw [hrun]
    exact resumableLoopGo_crashes n k (n - 0).toNat 0 0 (le_refl _) (by omega) hkn
  · obtain ⟨w, hw⟩ := finalCkpt_isSome _ hwrote none
    have hmem : w ∈ (resumableRun n (some k) none).2 := by
      rcases finalCkpt_mem _ none w hw with h | h
      · exact h
      · exact absurd h (fun hc => Option.noConfusion hc)
    have hmem' : w ∈ (resumableLoopGo n (some k) (n - 0).toNat 0 0).1 := by
      rw [hrun] at hmem
      exact hmem
    have hinv := resumableLoopGo_writes n (some k) (n - 0).toNat 0 0 (by norm_num) w hmem'
    obtain ⟨a, ha, hval⟩ :=
      resumableLoopGo_no_crash n (n - w.1).toNat w.1 w.2 (le_refl _) hinv.2.2.1
    have hinv2 := hinv.2.2.2
    have ha2 : 2 * a = n * (n - 1) := by omega
    have haform : a = n * (n - 1) / 2 := by omega
    obtain ⟨a0, ha0, hval0⟩ :=
      resumableLoopGo_no_crash n (n - 0).toNat 0 0 (le_refl _) (by omega)
    have ha0form : a0 = n * (n - 1) / 2 := by omega
    refine ⟨w.1, w.2, hw, by omega, hinv.2.2.1, loadCkptState_encode w.1 w.2, ?_, ?_⟩
    · rw [haform] at ha
      exact ha
    · rw [ha0form] at ha0
      exact ha0

/-- Witness for C1 at `n = 12`, `CRASH_AT = 9`: the first run writes the
checkpoint `(8, 28)` and crashes; the resumed run returns `66 = 12*11/2`. -/
theorem crash_resume_same_run_id_recovers_witness :
    (resumableRun 12 (some 9) none).1 = none ∧
    ∃ i₁ acc₁,
      finalCkpt (resumableRun 12 (some 9) none).2 none = some (i₁, acc₁) ∧
      1 ≤ i₁ ∧ i₁ ≤ 12 ∧
      loadCkptState (some (some (encodeState i₁ acc₁))) = some (i₁, acc₁) ∧
      (resumableRun 12 none (some (some (encodeState i₁ acc₁)))).1 = some (12 * (12 - 1) / 2) ∧
      (resumableRun 12 none none).1 = some (12 * (12 - 1) / 2) :=
  crash_resume_same_run_id_recovers 12 9 (by decide) (by decide) (by decide)

/-- C3: in a fresh, crash-free run of `resumable_work(n)`, checkpoints
are written exactly at the iterations `i` with `i % 8 = 0` or `i = n`
(in particular, for `n ≥ 1` one is written at completion with `i = n`),
and every written checkpoint `(i, acc)` satisfies `1 ≤ i ≤ n` and
`acc = i*(i-1)/2`. -/
theorem fresh_run_checkpoint_discipline (n : Int) :
    (∀ w ∈ (resumableRun n none none).2,
        (w.1 % 8 = 0 ∨ w.1 = n) ∧ 1 ≤ w.1 ∧ w.1 ≤ n ∧ w.2 = w.1 * (w.1 - 1) / 2) ∧
    (∀ j : Int, 1 ≤ j → j ≤ n → (j % 8 = 0 ∨ j = n) →
        ∃ a, (j, a) ∈ (resumableRun n none none).2) ∧
    (1 ≤ n → ∃ a, (n, a) ∈ (resumableRun n none none).2 ∧ a = n * (n - 1) / 2) := by
  have hrun : resumableRun n none none =
      ((resumableLoop n none 0 0).2, (resumableLoop n none 0 0).1) := rfl
  have hsound : ∀ w ∈ (resumableRun n none none).2,
      (w.1 % 8 = 0 ∨ w.1 = n) ∧ 1 ≤ w.1 ∧ w.1 ≤ n ∧ w.2 = w.1 * (w.1 - 1) / 2 := by
    intro w hw
    rw [hrun] at hw
    have h := resumableLoopGo_writes n none (n - 0).toNat 0 0 (by norm_num) w hw
    exact ⟨h.1, by omega, h.2.2.1, by omega⟩
  refine ⟨hsound, ?_, ?_⟩
  · intro j h1 hn hdue
    obtain ⟨a, ha⟩ :=
      resumableLoopGo_writes_complete n (n - 0).toNat 0 0 (le_refl _) j (by omega) hn hdue
    exact ⟨a, by rw [hrun]; exact ha⟩
  · intro h1
    obtain ⟨a, ha⟩ :=
      resumableLoopGo_writes_complete n (n - 0).toNat 0 0 (le_refl _) n (by omega)
        (le_refl _) (Or.inr rfl)
    have hmem : (n, a) ∈ (resumableRun n none none).2 := by rw [hrun]; exact ha
    have h := hsound (n, a) hmem
    exact ⟨a, hmem, h.2.2.2⟩

/-- Witness for C3 at `n = 9`: the run writes `(8, 28)` (because
`8 % 8 = 0`) and `(9, 36)` at completion, with `36 = 9*8/2`. -/
theorem fresh_run_checkpoint_discipline_witness :
    (((8:Int) % 8 = 0 ∨ (8:Int) = 9) ∧ 1 ≤ (8:Int) ∧ (8:Int) ≤ 9 ∧ (28:Int) = 8 * (8 - 1) / 2) ∧
    (∃ a, ((9:Int), a) ∈ (resumableRun 9 none none).2) ∧
    (∃ a, ((9:Int), a) ∈ (resumableRun 9 none none).2 ∧ a = 9 * (9 - 1) / 2) :=
  ⟨(fresh_run_checkpoint_discipline 9).1 (8, 28) (by decide),
   (fresh_run_checkpoint_discipline 9).2.1 9 (by decide) (by decide) (by decide),
   (fresh_run_checkpoint_discipline 9).2.2 (by decide)⟩

/-- C8 counterexample: an existing checkpoint file containing `[]` —
valid JSON, but not a saved state — makes `resumable_work` raise
(`state["i"]` is a `TypeError`, evaluated outside the `try/except`),
instead of falling back to the default state `{"i": 0, "acc": 0}`. -/
theorem ckpt_load_raises_on_valid_json_non_state :
    loadCkptState (some (some (Json.arr []))) = none ∧
    loadCkptState (some (some (Json.arr []))) ≠ some (0, 0) ∧
    (resumableRun 40 none (some (some (Json.arr [])))).1 = none := by decide

/-- C8 as amended: loading falls back to the default `{"i": 0, "acc": 0}`
exactly when the checkpoint file is absent or is not parseable JSON (the
`json.load` failure is caught, and the run behaves as if no file
existed); when the file parses to JSON from which integer `i` and `acc`
cannot be extracted, the load raises and the node fails. -/
theorem ckpt_load_fallback_characterization :
    (∀ f : Option (Option Json), loadCkptState f = none →
        ∃ j, f = some (some j) ∧
          ((getItem j "i").bind pyInt = none ∨ (getItem j "acc").bind pyInt = none)) ∧
    loadCkptState none = some (0, 0) ∧
    loadCkptState (some none) = some (0, 0) ∧
    (∀ n : Int, resumableRun n none (some none) = resumableRun n none none) := by
  refine ⟨?_, by decide, by decide, fun n => rfl⟩
  intro f hf
  match f with
  | none => exact absurd hf (by decide)
  | some none => exact absurd hf (by decide)
  | some (some j) =>
    refine ⟨j, rfl, ?_⟩
    by_cases hi : (getItem j "i").bind pyInt = none
    · exact Or.inl hi
    · by_cases hacc : (getItem j "acc").bind pyInt = none
      · exact Or.inr hacc
      · exfalso
        obtain ⟨vi, hvi⟩ := Option.ne_none_iff_exists'.mp hi
        obtain ⟨va, hva⟩ := Option.ne_none_iff_exists'.mp hacc
        rw [show loadCkptState (some (some j)) =
            (match (getItem j "i").bind pyInt, (getItem j "acc").bind pyInt with
              | some i, some acc => some (i, acc)
              | _, _ => none) from rfl, hvi, hva] at hf
        exact Option.noConfusion hf

/-- Witness for C8's amended claim: a file containing the JSON number
`3` parses, but `3["i"]` raises, so the load fails. -/
theorem ckpt_load_fallback_characterization_witness :
    ∃ j, (some (some (Json.num 3)) : Option (Option Json)) = some (some j) ∧
      ((getItem j "i").bind pyInt = none ∨ (getItem j "acc").bind pyInt = none) :=
  ckpt_load_fallback_characterization.1 (some (some (Json.num 3))) (by decide)

/-- C6: in `restart_minimal`, `combine_3` runs only after both
`fast_ok_1` and `resumable_2` (in every schedule that respects the
declared dependencies), receiving `a = 3*x` and `b = n*(n-1)/2`; for a
fresh run with no checkpoint and `CRASH_AT` unset, the graph output is
`3*x + n*(n-1)/2`. -/
theorem restart_minimal_join_output (x n : Int) (hn : 0 ≤ n) :
    restartMinimalOutput x n = some (3 * x + n * (n - 1) / 2) ∧
    ∀ order, validSchedule order →
      order.indexOf "fast_ok_1" < order.indexOf "combine_3" ∧
        order.indexOf "resumable_2" < order.indexOf "combine_3" := by
  constructor
  · obtain ⟨a0, ha0, hval0⟩ :=
      resumableLoopGo_no_crash n (n - 0).toNat 0 0 (le_refl _) hn
    have hform : a0 = n * (n - 1) / 2 := by omega
    have hrun : (resumableRun n none none).1 = (resumableLoopGo n none (n - 0).toNat 0 0).2 := rfl
    rw [restartMinimalOutput, hrun, ha0, hform]
    show some (combineSum (fastOk x) (n * (n - 1) / 2)) = _
    rw [combineSum, fastOk]
    congr 1
    ring
  · intro order hsched
    have hmem : "combine_3" ∈ order := hsched.2.1 "combine_3" (by decide)
    have h := hsched.2.2 "combine_3" hmem
    exact ⟨h "fast_ok_1" (by decide), h "resumable_2" (by decide)⟩

/-- Witness for C6 at `x = 7`, `n = 12` and the schedule that runs
`fast_ok_1`, then `resumable_2`, then `combine_3`. -/
theorem restart_minimal_join_output_witness :
    restartMinimalOutput 7 12 = some (3 * 7 + 12 * (12 - 1) / 2) ∧
    (["fast_ok_1", "resumable_2", "combine_3"].indexOf "fast_ok_1" <
        ["fast_ok_1", "resumable_2", "combine_3"].indexOf "combine_3" ∧
      ["fast_ok_1", "resumable_2", "combine_3"].indexOf "resumable_2" <
        ["fast_ok_1", "resumable_2", "combine_3"].indexOf "combine_3") :=
  ⟨(restart_minimal_join_output 7 12 (by decide)).1,
   (restart_minimal_join_output 7 12 (by decide)).2
     ["fast_ok_1", "resumable_2", "combine_3"]
     ⟨by decide, fun nd h => h, by decide⟩⟩

/-! ## `_ckpt_path` (lines 77-86): the checkpoint store's file naming

Paths are modelled as character lists; `os.path.join` with POSIX
separators.  The function returns `<cwd>/.ckpt/<run_id>__<node_id>.json`. -/

def ckptPath (cwd runId nodeId : List Char) : List Char :=
  cwd ++ "/.ckpt/".data ++ runId ++ "__".data ++ nodeId ++ ".json".data

example :
    ckptPath "/w".data "run-abc12345".data "resumable_2".data =
      "/w/.ckpt/run-abc12345__resumable_2.json".data := by decide

/-- C2 counterexample: the distinct pairs `("a", "b__c")` and
`("a__b", "c")` are mapped to the same checkpoint file
`<cwd>/.ckpt/a__b__c.json`, so the store is NOT injective on
(run_id, node_id) pairs. -/
theorem ckpt_path_collision :
    ckptPath "/w".data "a".data "b__c".data = ckptPath "/w".data "a__b".data "c".data ∧
    ¬("a".data = "a__b".data ∧ "b__c".data = "c".data) := by decide

theorem append_underscore_free_inj :
    ∀ (r₁ : List Char), '_' ∉ r₁ → ∀ (r₂ : List Char), '_' ∉ r₂ →
      ∀ (t₁ t₂ : List Char), r₁ ++ '_' :: t₁ = r₂ ++ '_' :: t₂ → r₁ = r₂ ∧ t₁ = t₂ := by
  intro r₁
  induction r₁ with
  | nil =>
    intro _ r₂ h₂ t₁ t₂ heq
    match r₂ with
    | [] =>
      simp only [List.nil_append, List.cons.injEq] at heq
      exact ⟨rfl, heq.2⟩
    | c :: r₂' =>
      simp only [List.nil_append, List.cons_append, List.cons.injEq] at heq
      exact absurd (heq.1 ▸ List.mem_cons_self c r₂') h₂
  | cons c r₁' ih =>
    intro h₁ r₂ h₂ t₁ t₂ heq
    match r₂ with
    | [] =>
      simp only [List.cons_append, List.nil_append, List.cons.injEq] at heq
      exact absurd (heq.1 ▸ List.mem_cons_self c r₁') h₁
    | c' :: r₂' =>
      simp only [List.cons_append, List.cons.injEq] at heq
      have h₁' : '_' ∉ r₁' := fun h => h₁ (List.mem_cons_of_mem c h)
      have h₂' : '_' ∉ r₂' := fun h => h₂ (List.mem_cons_of_mem c' h)
      obtain ⟨hr, ht⟩ := ih h₁' r₂' h₂' t₁ t₂ heq.2
      exact ⟨by rw [heq.1, hr], ht⟩

/-- C2 as amended: for run_ids that contain no underscore character
(which includes every generated `run-<8 hex>` id), distinct
(run_id, node_id) pairs always get distinct checkpoint files: the first
underscore of the file name separates the components unambiguously. -/
theorem ckpt_path_injective_underscore_free (cwd r₁ n₁ r₂ n₂ : List Char)
    (h₁ : '_' ∉ r₁) (h₂ : '_' ∉ r₂)
    (heq : ckptPath cwd r₁ n₁ = ckptPath cwd r₂ n₂) : r₁ = r₂ ∧ n₁ = n₂ := by
  unfold ckptPath at heq
  simp only [List.append_assoc] at heq
  have heq₁ : r₁ ++ ("__".data ++ (n₁ ++ ".json".data)) =
      r₂ ++ ("__".data ++ (n₂ ++ ".json".data)) :=
    List.append_cancel_left (List.append_cancel_left heq)
  have heq₂ : r₁ ++ '_' :: ('_' :: (n₁ ++ ".json".data)) =
      r₂ ++ '_' :: ('_' :: (n₂ ++ ".json".data)) := heq₁
  obtain ⟨hr, ht⟩ := append_underscore_free_inj r₁ h₁ r₂ h₂ _ _ heq₂
  have hn : n₁ ++ ".json".data = n₂ ++ ".json".data := by
    injection ht with _ ht'
  exact ⟨hr, List.append_cancel_right hn⟩

/-- Witness for the amended C2 at the underscore-free run_ids
`run-aa` = `run-aa` with node_id `resumable_2`. -/
theorem ckpt_path_injective_underscore_free_witness :
    "run-aa".data = "run-aa".data ∧ "resumable_2".data = "resumable_2".data :=
  ckpt_path_injective_underscore_free "/w".data "run-aa".data "resumable_2".data
    "run-aa".data "resumable_2".data (by decide) (by decide) (by decide)

/-! ## `demo_examples/1_chat_with_memory.py`: the warmup step

Lines 118-152 of `chat_agent_with_memory`: read the recent `chat_turn`
records inside `try/except` (any failure is caught, logged, and replaced
by the empty list), pre-seed the `conversation` buffer with the
well-shaped turns, and send the appropriate banner to the channel.
`recent` is the outcome of the external `mem.recent_data(...)` call:
`.ok turns` on success, `.error e` when it raises. -/

/-- Python truthiness of a decoded JSON value (the `and text` guard on
line 141). -/
def jsonTruthy : Json → Bool
  | .null => false
  | .bool b => b
  | .num n => n != 0
  | .str s => !s.isEmpty
  | .arr xs => !xs.isEmpty
  | .obj fs => !fs.isEmpty

/-- Lines 135-143: keep `d` only if it is a dict whose `role` is
`"user"` or `"assistant"` and whose `text` is truthy; the kept entry is
`{"role": role, "text": text}`. -/
def extractTurn (d : Json) : Option (String × Json) :=
  match d with
  | .obj _ =>
    match getItem d "role", getItem d "text" with
    | some (.str r), some t =>
      if (r = "user" ∨ r = "assistant") ∧ jsonTruthy t then some (r, t) else none
    | _, _ => none
  | _ => none

def warmupConversation (previousTurns : List Json) : List (String × Json) :=
  previousTurns.filterMap extractTurn

def warmupBanner (previousTurns : List Json) : String :=
  if previousTurns.isEmpty then
    "👋 New session. I’ll remember this conversation as we go."
  else
    "🧠 I loaded " ++ toString (warmupConversation previousTurns).length ++
      " previous chat turns into context.\nI’ll use them as part of our conversation history."

structure WarmupResult where
  previousTurns : List Json
  conversation : List (String × Json)
  banner : String

/-- The whole warmup phase as a total function of the memory-read
outcome: an exception from `mem.recent_data` is caught by the
`try/except` (lines 121-131) and replaced by `previous_turns = []`. -/
def warmupStep (recent : Except String (List Json)) : WarmupResult :=
  let previousTurns : List Json :=
    match recent with
    | .ok ts => ts
    | .error _ => []
  { previousTurns := previousTurns
    conversation := warmupConversation previousTurns
    banner := warmupBanner previousTurns }

/-- C4: if reading the recent `chat_turn` records raises any exception,
`previous_turns` is set to the empty list, the conversation buffer stays
empty, the agent sends the new-session banner, and the warmup behaves
exactly as a successful read that returned no records — the exception
does not escape the warmup step (`warmupStep` is total). -/
theorem chat_memory_read_failure_fallback (e : String) :
    (warmupStep (.error e)).previousTurns = [] ∧
    (warmupStep (.error e)).conversation = [] ∧
    (warmupStep (.error e)).banner =
      "👋 New session. I’ll remember this conversation as we go." ∧
    warmupStep (.error e) = warmupStep (.ok []) :=
  ⟨rfl, rfl, rfl, rfl⟩

/-! ## `pattern_examples/1_state_resumption/1_resume_external_waits.py`

The `hello_resume` graph is a chain of four nodes with stable ids
(lines 72-78): `send_text_5` → `ask_text_6` → `format_message_7` →
`send_text_8`, where `ask_text_6` awaits human input.  `format_message`
(lines 57-58) is the only tool defined in the repository; the engine
that executes the chain, persists the WAITING_HUMAN continuation and
cold-resumes is external. -/

/-- `format_message` (lines 57-58): `{"msg": f"{greeting} Nice to meet you, {name}."}`. -/
def formatMessage (greeting name : String) : String :=
  greeting ++ " Nice to meet you, " ++ name ++ "."

inductive NodeKind where
  | act
  | askHuman

/-- The `hello_resume` chain in dependency (`_after`) order. -/
def helloChain : List (String × NodeKind) :=
  [("send_text_5", .act), ("ask_text_6", .askHuman),
   ("format_message_7", .act), ("send_text_8", .act)]

/-- A persisted run snapshot: which nodes completed, which node (if any)
holds a WAITING_HUMAN continuation, and the persisted `ask_text` answer. -/
structure Snapshot where
  completed : List String
  waiting : Option String
  answer : Option String

def initialSnapshot : Snapshot := ⟨[], none, none⟩

/-- Modelled from the spec: the engine's suspension/resume protocol is
not in the repository ("nodes that await external input persist a
continuation record and yield control; a later external event resumes
execution from that exact point without replaying completed nodes").
`run_async` walks the chain in order, skipping nodes already recorded as
completed in the snapshot; an `askHuman` node with no inbound reply
persists a WAITING_HUMAN continuation and yields, with a reply it stores
the answer and execution continues.  Returns the new snapshot and the
ids of the nodes executed during this invocation. -/
def runChain : List (String × NodeKind) → Snapshot → Option String → Snapshot × List String
  | [], st, _ => (st, [])
  | (nid, k) :: rest, st, reply =>
    if st.completed.contains nid then runChain rest st reply
    else
      match k with
      | .act =>
        let st' := { st with completed := st.completed ++ [nid] }
        let r := runChain rest st' reply
        (r.1, nid :: r.2)
      | .askHuman =>
        match reply with
        | some ans =>
          let st' := { st with completed := st.completed ++ [nid],
                               answer := some ans, waiting := none }
          let r := runChain rest st' reply
          (r.1, nid :: r.2)
        | none => ({ st with waiting := some nid }, [])

/-- Modelled from the spec: the graph output `final = msg.msg`, available
once `format_message_7` has run with `greeting = "ok"` and `name` = the
persisted `ask_text_6` answer. -/
def helloFinal (st : Snapshot) : Option String :=
  if st.completed.contains "format_message_7" then st.answer.map (formatMessage "ok")
  else none

/-- C5: the first `run_async` of `hello_resume` with no human reply
completes `send_text_5`, then suspends with a WAITING_HUMAN continuation
at `ask_text_6`; a later `run_async` with the same run_id (resuming from
the persisted snapshot) executes `ask_text_6`, `format_message_7` and
`send_text_8` but does not re-execute the completed `send_text_5`, and
completes with final output `"ok Nice to meet you, <name>."` for the
name the human supplies. -/
theorem hello_resume_waits_then_resumes (name : String) :
    (runChain helloChain initialSnapshot none).1.waiting = some "ask_text_6" ∧
    (runChain helloChain initialSnapshot none).1.completed = ["send_text_5"] ∧
    (runChain helloChain initialSnapshot none).2 = ["send_text_5"] ∧
    (runChain helloChain (runChain helloChain initialSnapshot none).1 (some name)).2 =
      ["ask_text_6", "format_message_7", "send_text_8"] ∧
    ((runChain helloChain (runChain helloChain initialSnapshot none).1 (some name)).2.count
      "send_text_5") = 0 ∧
    helloFinal (runChain helloChain (runChain helloChain initialSnapshot none).1 (some name)).1 =
      some ("ok Nice to meet you, " ++ name ++ ".") :=
  ⟨rfl, rfl, rfl, rfl, rfl, rfl⟩

/-! ## `method_showcase/7_concurrency/2_graph_fn_concurrency.py`

`batch_agent` fans out one task per item, every task wrapped in
`run_capped`, which enters the body only under `async with sem` for the
module-level `sem = asyncio.Semaphore(4)`.  The asyncio event loop is
modelled as an interleaving transition system over the per-task phases:
a task is `pending` until it acquires the semaphore, `body` while inside
`async with sem` (the task body runs there), and `done` after release.
`CapStep.acquire` is enabled only when the semaphore has a free slot,
i.e. fewer than `cap` tasks are inside — exactly `Semaphore(cap)`
semantics.  By construction of `batch_agent`, every per-item body runs
between an acquire and the matching release. -/

inductive TaskPhase where
  | pending
  | body
  | done
deriving DecidableEq

/-- How many of the per-item task bodies are currently executing. -/
def bodyCount : List TaskPhase → Nat
  | [] => 0
  | .body :: ts => bodyCount ts + 1
  | .pending :: ts => bodyCount ts
  | .done :: ts => bodyCount ts

theorem bodyCount_append (l r : List TaskPhase) :
    bodyCount (l ++ r) = bodyCount l + bodyCount r := by
  induction l with
  | nil => simp [bodyCount]
  | cons x t ih => cases x <;> simp [bodyCount, ih, Nat.add_right_comm]

/-- One scheduler step of the fan-out: some pending task acquires the
semaphore (possible only while fewer than `cap` tasks hold it), or some
task inside the body finishes and releases it. -/
inductive CapStep (cap : Nat) : List TaskPhase → List TaskPhase → Prop where
  | acquire (l r : List TaskPhase) :
      bodyCount (l ++ TaskPhase.pending :: r) < cap →
      CapStep cap (l ++ TaskPhase.pending :: r) (l ++ TaskPhase.body :: r)
  | release (l r : List TaskPhase) :
      CapStep cap (l ++ TaskPhase.body :: r) (l ++ TaskPhase.done :: r)

theorem capStep_preserves_bound (cap : Nat) {s s' : List TaskPhase}
    (h : CapStep cap s s') (hs : bodyCount s ≤ cap) : bodyCount s' ≤ cap := by
  cases h with
  | acquire l r hlt =>
    rw [bodyCount_append] at hlt ⊢
    simp only [bodyCount] at hlt ⊢
    omega
  | release l r =>
    rw [bodyCount_append] at hs ⊢
    simp only [bodyCount] at hs ⊢
    omega

theorem bodyCount_replicate_pending (m : Nat) :
    bodyCount (List.replicate m TaskPhase.pending) = 0 := by
  induction m with
  | zero => rfl
  | succ m ih => simpa [List.replicate, bodyCount] using ih

/-- C7: for an input list of any length `m`, in every state the asyncio
scheduler can reach from the initial fan-out of `batch_agent` (all `m`
per-item tasks pending on `run_capped`'s `async with sem` for the
module-level `Semaphore(4)`), at most 4 task bodies are executing
concurrently. -/
theorem batch_agent_semaphore_bound (m : Nat) (s : List TaskPhase)
    (h : Relation.ReflTransGen (CapStep 4) (List.replicate m TaskPhase.pending) s) :
    bodyCount s ≤ 4 := by
  induction h with
  | refl => simp [bodyCount_replicate_pending]
  | tail _ hstep ih => exact capStep_preserves_bound 4 hstep ih

/-- Witness for C7: with 7 items (the demo's fruit list) and one task
having acquired the semaphore, the bound holds. -/
theorem batch_agent_semaphore_bound_witness :
    bodyCount (TaskPhase.body :: List.replicate 6 TaskPhase.pending) ≤ 4 :=
  batch_agent_semaphore_bound 7 _
    (Relation.ReflTransGen.single
      (CapStep.acquire [] (List.replicate 6 TaskPhase.pending) (by decide)))

/-! ## `method_showcase/7_concurrency/1_graphify_concurrency.py` -/

def MAX_WORKERS : Nat := 5

/-- `pick` (lines 32-35): `items[index]`; `none` models the `IndexError`
(all indices used by the graph are nonnegative). -/
def pick (items : List Int) (index : Nat) : Option Int := items.get? index

/-- `work` (lines 38-41): `{"out": x * 2}`. -/
def work (x : Int) : Int := x * 2

/-- `reduce_sum` (lines 44-46): `{"sum": sum(xs)}`. -/
def reduceSum (xs : List Int) : Int := xs.sum

/-- The `map_reduce` graph (lines 49-63): a fixed fan-out of
`MAX_WORKERS` `pick`+`work` node pairs over indices `0..4`, fanned in by
`reduce_sum`; if any `pick` raises, the graph run fails (`none`). -/
def mapReduce (vals : List Int) : Option Int :=
  match (List.range MAX_WORKERS).mapM (fun i => pick vals i) with
  | some picked => some (reduceSum (picked.map work))
  | none => none

example : mapReduce [1, 2, 3, 4, 5] = some 30 := by decide
example : mapReduce [1, 2, 3, 4, 5, 100] = some 30 := by decide
example : mapReduce [1, 2] = none := by decide

/-- C9: for every integer list `vals` with at least `MAX_WORKERS = 5`
elements, `map_reduce` returns
`sum = 2*(vals[0]+vals[1]+vals[2]+vals[3]+vals[4])` — only the first
five elements contribute — and for shorter lists a `pick` node raises
`IndexError`, so the run produces no sum. -/
theorem map_reduce_first_five_only (vals : List Int) :
    (MAX_WORKERS ≤ vals.length →
        mapReduce vals = some (2 * (vals.getD 0 0 + vals.getD 1 0 + vals.getD 2 0 +
          vals.getD 3 0 + vals.getD 4 0))) ∧
    (vals.length < MAX_WORKERS → mapReduce vals = none) := by
  rcases vals with _ | ⟨v0, _ | ⟨v1, _ | ⟨v2, _ | ⟨v3, _ | ⟨v4, rest⟩⟩⟩⟩⟩
  · exact ⟨fun h => by simp [MAX_WORKERS] at h, fun _ => rfl⟩
  · exact ⟨fun h => by simp [MAX_WORKERS] at h, fun _ => rfl⟩
  · exact ⟨fun h => by simp [MAX_WORKERS] at h, fun _ => rfl⟩
  · exact ⟨fun h => by simp [MAX_WORKERS] at h, fun _ => rfl⟩
  · exact ⟨fun h => by simp [MAX_WORKERS] at h, fun _ => rfl⟩
  · refine ⟨fun _ => ?_, fun h => ?_⟩
    · have hred : mapReduce (v0 :: v1 :: v2 :: v3 :: v4 :: rest) =
          some (reduceSum [v0 * 2, v1 * 2, v2 * 2, v3 * 2, v4 * 2]) := rfl
      rw [hred]
      congr 1
      show [v0 * 2, v1 * 2, v2 * 2, v3 * 2, v4 * 2].sum =
        2 * (v0 + v1 + v2 + v3 + v4)
      simp [List.sum_cons, List.sum_nil]
      ring
    · simp only [List.length_cons, MAX_WORKERS] at h
      omega

/-- Witness for C9: the demo input `[1,2,3,4,5]` (with an extra element
appended to show it is ignored) gives 30, and a 2-element list fails. -/
theorem map_reduce_first_five_only_witness :
    mapReduce [1, 2, 3, 4, 5, 100] = some (2 * (1 + 2 + 3 + 4 + 5)) ∧
    mapReduce [1, 2] = none :=
  ⟨(map_reduce_first_five_only [1, 2, 3, 4, 5, 100]).1 (by decide),
   (map_reduce_first_five_only [1, 2]).2 (by decide)⟩

/-! ## `_resolve_run_id` (demo 6 lines 192-209; pattern example lines 99-107) -/

/-- Python `str.strip()`. -/
def pyStrip (s : String) : String := ⟨pyStripChars s.data⟩

/-- Python slicing `s[:k]` for `k ≥ 0`. -/
def takeChars (k : Nat) (s : String) : String := ⟨s.data.take k⟩

/-- A lowercase hexadecimal digit, as produced by `uuid.uuid4().hex`. -/
def isLowerHexDigit (c : Char) : Bool := c.isDigit || ('a' ≤ c && c ≤ 'f')

/-- `_resolve_run_id`: first CLI argument if present and non-blank after
stripping, else the `RUN_ID` environment variable if set and non-blank,
else `"run-" + uuid.uuid4().hex[:8]`.  `argv` is the full `sys.argv`
(`argv[0]` is the script path), `envRunId` is `os.getenv("RUN_ID")`
(`none` when unset), and `uuidHex` is the `uuid4().hex` string the
generator draws. -/
def resolveRunId (argv : List String) (envRunId : Option String) (uuidHex : String) : String :=
  if 2 ≤ argv.length ∧ pyStrip (argv.getD 1 "") ≠ "" then pyStrip (argv.getD 1 "")
  else
    match envRunId with
    | some rid =>
      if rid ≠ "" ∧ pyStrip rid ≠ "" then pyStrip rid
      else "run-" ++ takeChars 8 uuidHex
    | none => "run-" ++ takeChars 8 uuidHex

example : resolveRunId ["demo.py", " my-run "] (some "env-run") "0123456789abcdef0123456789abcdef" =
    "my-run" := by decide
example : resolveRunId ["demo.py", "  "] (some " env-run ") "0123456789abcdef0123456789abcdef" =
    "env-run" := by decide
example : resolveRunId ["demo.py"] (some "   ") "0123456789abcdef0123456789abcdef" =
    "run-01234567" := by decide
example : resolveRunId ["demo.py"] none "0123456789abcdef0123456789abcdef" =
    "run-01234567" := by decide

theorem pyStrip_empty : pyStrip "" = "" := rfl

/-- C10: `_resolve_run_id` resolves the run identifier with this exact
priority: the stripped first CLI argument when present and non-blank;
otherwise the stripped `RUN_ID` environment variable when set and
non-blank; otherwise a fresh id `"run-"` followed by the first 8
characters of `uuid4().hex` — 8 lowercase hexadecimal characters, given
that `uuid4().hex` is a 32-character lowercase hex string. -/
theorem resolve_run_id_priority (argv : List String) (envRunId : Option String)
    (uuidHex : String) (hlen : uuidHex.data.length = 32)
    (hhex : ∀ c ∈ uuidHex.data, isLowerHexDigit c) :
    (2 ≤ argv.length → pyStrip (argv.getD 1 "") ≠ "" →
      resolveRunId argv envRunId uuidHex = pyStrip (argv.getD 1 "")) ∧
    (¬(2 ≤ argv.length ∧ pyStrip (argv.getD 1 "") ≠ "") →
      ∀ rid, envRunId = some rid → pyStrip rid ≠ "" →
        resolveRunId argv envRunId uuidHex = pyStrip rid) ∧
    (¬(2 ≤ argv.length ∧ pyStrip (argv.getD 1 "") ≠ "") →
      (∀ rid, envRunId = some rid → pyStrip rid = "") →
        resolveRunId argv envRunId uuidHex = "run-" ++ takeChars 8 uuidHex ∧
        (resolveRunId argv envRunId uuidHex).data = "run-".data ++ uuidHex.data.take 8 ∧
        (uuidHex.data.take 8).length = 8 ∧
        ∀ c ∈ uuidHex.data.take 8, isLowerHexDigit c) := by
  refine ⟨?_, ?_, ?_⟩
  · intro h1 h2
    rw [resolveRunId.eq_def, if_pos ⟨h1, h2⟩]
  · intro hno rid hrid hps
    have hne : rid ≠ "" := by
      intro h
      rw [h, pyStrip_empty] at hps
      exact hps rfl
    rw [resolveRunId.eq_def, if_neg hno, hrid]
    show (if rid ≠ "" ∧ pyStrip rid ≠ "" then pyStrip rid
      else "run-" ++ takeChars 8 uuidHex) = pyStrip rid
    rw [if_pos ⟨hne, hps⟩]
  · intro hno hblank
    have hgen : resolveRunId argv envRunId uuidHex = "run-" ++ takeChars 8 uuidHex := by
      rw [resolveRunId.eq_def, if_neg hno]
      match envRunId with
      | none => rfl
      | some rid =>
        have hb := hblank rid rfl
        show (if rid ≠ "" ∧ pyStrip rid ≠ "" then pyStrip rid
          else "run-" ++ takeChars 8 uuidHex) = "run-" ++ takeChars 8 uuidHex
        rw [if_neg (fun hc => hc.2 hb)]
    refine ⟨hgen, ?_, ?_, ?_⟩
    · rw [hgen]
      rfl
    · simp [List.length_take, hlen]
    · intro c hc
      exact hhex c (List.take_subset 8 uuidHex.data hc)

/-- Witness for C10 with no CLI argument and no `RUN_ID`: the generated
id is `run-` plus the first 8 characters of the drawn uuid hex. -/
theorem resolve_run_id_priority_witness :
    resolveRunId ["demo.py"] none "0123456789abcdef0123456789abcdef" =
      "run-" ++ takeChars 8 "0123456789abcdef0123456789abcdef" ∧
    (resolveRunId ["demo.py"] none "0123456789abcdef0123456789abcdef").data =
      "run-".data ++ "0123456789abcdef0123456789abcdef".data.take 8 ∧
    ("0123456789abcdef0123456789abcdef".data.take 8).length = 8 ∧
    ∀ c ∈ "0123456789abcdef0123456789abcdef".data.take 8, isLowerHexDigit c :=
  (resolve_run_id_priority ["demo.py"] none "0123456789abcdef0123456789abcdef"
      (by decide) (by decide)).2.2
    (by intro h; exact absurd h.1 (by decide))
    (fun rid h => Option.noConfusion h)

end AethergraphExamples
